import Mathlib

/-!
Verification development for the AdTokens public API repository.

The repository ships documentation plus reference client implementations
(JavaScript `batch-search.js`, TypeScript `streaming-search.ts`, a Python
snippet `ConversationSession` in the best-practices document). The client
code is embedded here as executable Lean definitions; the server-side
search pipeline, attribution store and rate limiter are not shipped in the
repository, so those parts are modelled from the specification and are
marked as such in their doc comments.
-/

namespace AdTokens

/-! ## Conversation sessions (Python snippet, `ConversationSession`) -/

/-- A conversation message, `{"role": role, "content": content}`. -/
structure Message where
  role : String
  content : String
deriving DecidableEq, Repr

/-- `ConversationSession`: a session id plus the accumulated message list. -/
structure ConversationSession where
  session_id : String
  messages : List Message
deriving DecidableEq, Repr

/-- The JSON payload built by `ConversationSession.search`. -/
structure SessionSearchPayload where
  query : String
  session_id : String
  conversation_context : List Message
deriving DecidableEq, Repr

/-- `ConversationSession.add_message(role, content)`: appends to `self.messages`. -/
def ConversationSession.add_message (s : ConversationSession) (role content : String) :
    ConversationSession :=
  { s with messages := s.messages ++ [{ role := role, content := content }] }

/-- The payload sent by `ConversationSession.search(query)`:
`{"query": query, "session_id": self.session_id,
  "conversation_context": self.messages[-10:]}`.
The Python slice `xs[-10:]` is the suffix of `xs` of length `min |xs| 10`,
i.e. `xs.drop (|xs| - 10)` with truncated subtraction. -/
def ConversationSession.searchPayload (s : ConversationSession) (query : String) :
    SessionSearchPayload :=
  { query := query
    session_id := s.session_id
    conversation_context := s.messages.drop (s.messages.length - 10) }

/-! ## Batch search (JavaScript `batchSearch`) -/

/-- One element of the `queries` array of a batch request body. -/
structure BatchQuery where
  query : String
  limit : Int
deriving DecidableEq, Repr

/-- The `POST /search/batch` body built by `batchSearch`. -/
structure BatchRequest where
  queries : List BatchQuery
deriving DecidableEq, Repr

/-- The batch request body built by `batchSearch(queries, apiKey)`:
`{queries: queries.map(query => ({query: query, limit: 3}))}`. -/
def batchSearchRequest (queries : List String) : BatchRequest :=
  { queries := queries.map (fun q => { query := q, limit := 3 }) }

/-- The positional pairing performed in `main` over the batch response:
`result.results.forEach((searchResult, index) => { const query = queries[index]; ... })`.
Each per-query result at position `index` is displayed against
`queries[index]` (`undefined`, i.e. `none`, when out of range). -/
def batchDisplayPairs {α : Type} (results : List α) (queries : List String) :
    List (α × Option String) :=
  results.enum.map (fun p => (p.2, queries[p.1]?))

/-! ## JavaScript value helpers -/

/-- JS truthiness of an optional string: `undefined`/`null` (here `none`) and
the empty string are falsy, every other string is truthy. -/
def truthy : Option String → Bool
  | none => false
  | some s => !(s == "")

/-- Outcome of an awaited `fetch` call: the promise either rejects with a
network error, or resolves with a response carrying `ok`, a status code and
a (already JSON-parsed) body. `fetch` does not reject on non-2xx statuses. -/
inductive FetchOutcome (β : Type) where
  | networkError (msg : String)
  | response (ok : Bool) (status : Nat) (body : β)
deriving DecidableEq, Repr

/-- A JS `try { body } catch (e) { handler(e) }` block whose handler swallows
the exception: a thrown body is replaced by the handler's value. -/
def jsTryCatch {α : Type} (body : Except String α) (handler : String → α) : Except String α :=
  match body with
  | .error e => .ok (handler e)
  | .ok a => .ok a

/-- Awaiting a `fetch`: a network error rejects (throws), a response resolves. -/
def fetchAwait {β : Type} (outcome : FetchOutcome β) : Except String (FetchOutcome β) :=
  match outcome with
  | .networkError msg => .error msg
  | r => .ok r

/-! ## Click tracking (JavaScript `trackClick` and `AdTokensAgent.trackClick`) -/

/-- The click confirmation body returned by `POST /clicks/...` (`{timestamp}`). -/
structure ClickResponse where
  timestamp : String
deriving DecidableEq, Repr

/-- The optional JSON body of `POST /clicks/...` built by `trackClick`. -/
structure ClickPayload where
  request_id : Option String
deriving DecidableEq, Repr

/-- The body built by `trackClick(impressionId, apiKey, requestId = null)`:
`const payload = {}; if (requestId) { payload.request_id = requestId; }`.
The `if (requestId)` test is JS truthiness. -/
def trackClickPayload (requestId : Option String) : ClickPayload :=
  { request_id := if truthy requestId then requestId else none }

/-- Standalone `trackClick(impressionId, apiKey, requestId)`: builds the payload,
then on a response with `ok` resolves with the parsed JSON body, on a non-ok
response throws an `HTTP error!` message (whose text also interpolates the
parsed error body in the source) and on a network error logs and rethrows. -/
def trackClick (requestId : Option String) (outcome : FetchOutcome ClickResponse) :
    ClickPayload × Except String ClickResponse :=
  (trackClickPayload requestId,
    match outcome with
    | .networkError msg => .error msg
    | .response ok status body =>
      if ok then .ok body else .error ("HTTP error! status: " ++ toString status))

/-- State of an `AdTokensAgent`: the constructor sets `this.sessionId = null`
(the api key and base url are constants irrelevant to the modelled behavior). -/
structure AdTokensAgent where
  sessionId : Option String
deriving DecidableEq, Repr

/-- A freshly constructed agent, `new AdTokensAgent(apiKey)`. -/
def AdTokensAgent.init : AdTokensAgent := { sessionId := none }

/-- Result of `AdTokensAgent.trackClick`: it always resolves with `undefined`;
`warned` records whether the catch block logged a warning. -/
structure TrackClickResult where
  warned : Bool
deriving DecidableEq, Repr

/-- `AdTokensAgent.trackClick(impressionId)`:
`try { await fetch(...) } catch (error) { console.warn(...) }` — the response
(whatever its status) is ignored and a rejected fetch is caught and logged. -/
def AdTokensAgent.trackClick {β : Type} (outcome : FetchOutcome β) :
    Except String TrackClickResult :=
  jsTryCatch ((fetchAwait outcome).map (fun _ => { warned := false }))
    (fun _ => { warned := true })

/-! ## Session id handling (`AdTokensAgent.searchProducts`) -/

/-- The `metadata` object of a search response, as read by `searchProducts`. -/
structure ResponseMetadata where
  session_id : Option String
deriving DecidableEq, Repr

/-- A search response as read by `searchProducts` (`result.metadata`). -/
structure SearchResponseMeta where
  metadata : Option ResponseMetadata
deriving DecidableEq, Repr

/-- The `session_id` field the payload of `AdTokensAgent.searchProducts` carries:
`if (this.sessionId) { payload.session_id = this.sessionId; }`. -/
def AdTokensAgent.payloadSessionId (a : AdTokensAgent) : Option String :=
  if truthy a.sessionId then a.sessionId else none

/-- The update `searchProducts` performs after parsing a response:
`if (result.metadata && result.metadata.session_id)
   { this.sessionId = result.metadata.session_id; }`. -/
def AdTokensAgent.updateSession (a : AdTokensAgent) (r : SearchResponseMeta) : AdTokensAgent :=
  match r.metadata with
  | some m => if truthy m.session_id then { a with sessionId := m.session_id } else a
  | none => a

/-- The truthy (non-empty) session id carried by a response's metadata, if any. -/
def carriedSessionId (r : SearchResponseMeta) : Option String :=
  match r.metadata with
  | some m => if truthy m.session_id then m.session_id else none
  | none => none

/-- The most recently carried truthy session id over a sequence of responses. -/
def lastCarriedSessionId (rs : List SearchResponseMeta) : Option String :=
  rs.foldl (fun acc r =>
    match carriedSessionId r with
    | some s => some s
    | none => acc) none

/-- Agent state after a fresh agent has run one `searchProducts` call per
response in `rs`, in order. -/
def AdTokensAgent.afterResponses (rs : List SearchResponseMeta) : AdTokensAgent :=
  rs.foldl AdTokensAgent.updateSession AdTokensAgent.init

/-! ## Product formatting (`AdTokensAgent.formatProductsForAgent`) -/

/-- A product object as consumed by `formatProductsForAgent` (`AdResponse`). -/
structure AdProduct where
  title : String
  price : String
  merchant : String
  relevance_explanation : String
  url : String
  disclosure_text : Option String
deriving DecidableEq, Repr

/-- One iteration of the `products.forEach((product, index) => ...)` loop of
`formatProductsForAgent`: the lines appended for product number `index + 1`. -/
def productLine (index : Nat) (p : AdProduct) : String :=
  toString (index + 1) ++ ". **" ++ p.title ++ "**\n" ++
  "   - Price: " ++ p.price ++ "\n" ++
  "   - Merchant: " ++ p.merchant ++ "\n" ++
  "   - " ++ p.relevance_explanation ++ "\n" ++
  "   - [View Product](" ++ p.url ++ ")\n\n"

/-- The `forEach` loop itself, threading the running index and accumulator. -/
def formatBodyFrom (index : Nat) (products : List AdProduct) (acc : String) : String :=
  match products with
  | [] => acc
  | p :: ps => formatBodyFrom (index + 1) ps (acc ++ productLine index p)

/-- The value of `formatted` after the `forEach` loop, before the disclosure
conditional. -/
def formatBody (products : List AdProduct) : String :=
  formatBodyFrom 0 products "Here are some product recommendations:\n\n"

/-- `AdTokensAgent.formatProductsForAgent(products)`. `none` models a
`null`/`undefined` argument: `if (!products || products.length === 0)` returns
the fallback; afterwards `if (products[0].disclosure_text)` appends the first
product's disclosure text exactly when it is truthy (present and non-empty). -/
def formatProductsForAgent (products : Option (List AdProduct)) : String :=
  match products with
  | none => "No products found."
  | some [] => "No products found."
  | some (p :: ps) =>
    formatBody (p :: ps) ++
      (if truthy p.disclosure_text then "\n" ++ p.disclosure_text.getD "" ++ "\n" else "")

/-- A concrete product whose optional `disclosure_text` is present but empty
(a falsy value under `if (products[0].disclosure_text)`). -/
def emptyDisclosureProduct : AdProduct :=
  { title := "T", price := "$1", merchant := "M", relevance_explanation := "E",
    url := "U", disclosure_text := some "" }

/-! ## SSE stream processing (TypeScript `streamSearch`) -/

/-- A product object of a streamed `result` event (`StreamingProduct`).
The relevance score is modelled as a rational. -/
structure StreamingProduct where
  product_id : String
  impression_id : String
  title : String
  price : String
  relevance_score : ℚ
deriving DecidableEq, Repr

/-- The parsed payload of a `data:` line (`StreamingData`). `results := none`
models an absent/null field (falsy under `if (data.results)`), while
`some []` models a present empty array (truthy in JS). `total_matches` is the
optional `metadata.total_matches`, which is only logged. -/
structure StreamingData where
  results : Option (List StreamingProduct)
  total_matches : Option Nat
deriving DecidableEq, Repr

/-- Whitespace removed by `String.prototype.trim()` (the whitespace characters
that can occur in an SSE byte stream). -/
def isJsSpace (c : Char) : Bool :=
  c == ' ' || c == '\t' || c == '\n' || c == '\r'

/-- `line.trim()` on a list of characters. -/
def trimChars (l : List Char) : List Char :=
  ((l.dropWhile isJsSpace).reverse.dropWhile isJsSpace).reverse

/-- One step of splitting on `'\n'`: prepend character `c` to an already split
tail `p` (complete lines, trailing fragment). -/
def lineSplitStep (c : Char) (p : List (List Char) × List Char) :
    List (List Char) × List Char :=
  if c = '\n' then ([] :: p.1, p.2)
  else
    match p.1 with
    | [] => ([], c :: p.2)
    | l :: ls => ((c :: l) :: ls, p.2)

/-- `buffer.split('\n')` followed by `buffer = lines.pop() || ''`: the complete
lines (everything before the last `'\n'`-separated part) and the trailing
incomplete fragment kept in the buffer. -/
def lineSplit : List Char → List (List Char) × List Char
  | [] => ([], [])
  | c :: cs => lineSplitStep c (lineSplit cs)

/-- Processing of one complete line by the loop body of `streamSearch`:
skip blank lines, skip `event:` lines, parse `data:` lines with `JSON.parse`
(modelled by the `parseData` parameter; a parse failure only logs a warning)
and report the products of a truthy `results` field in order. -/
def handleLine (parseData : List Char → Option StreamingData)
    (products : List StreamingProduct) (line : List Char) : List StreamingProduct :=
  let trimmed := trimChars line
  if trimmed.isEmpty then products
  else if List.isPrefixOf ("event: ".data) trimmed then products
  else if List.isPrefixOf ("data: ".data) trimmed then
    match parseData (trimmed.drop 6) with
    | some data =>
      match data.results with
      | some rs => products ++ rs
      | none => products
    | none => products
  else products

/-- The loop state of `streamSearch`: the carry-over `buffer` and the products
reported so far (`productsReceived` is the length of `products`). -/
structure StreamState where
  buffer : List Char
  products : List StreamingProduct
deriving DecidableEq, Repr

/-- Handling of one decoded chunk by the read loop of `streamSearch`:
`buffer += chunk; const lines = buffer.split('\n'); buffer = lines.pop() || '';`
followed by processing every complete line. -/
def processChunk (parseData : List Char → Option StreamingData)
    (st : StreamState) (chunk : List Char) : StreamState :=
  { buffer := (lineSplit (st.buffer ++ chunk)).2
    products := (lineSplit (st.buffer ++ chunk)).1.foldl (handleLine parseData) st.products }

/-- The state of `streamSearch` before the first chunk arrives:
`let buffer = ''; let productsReceived = 0;`. -/
def initStreamState : StreamState := { buffer := [], products := [] }

/-! ## Spec-modelled server-side core

The server implementing `POST /search`, the attribution store behind
`POST /clicks/...` and the rate limiter are not shipped in this repository
(only their documentation and clients are), so the following definitions are
modelled from the specification. -/

/-- Error taxonomy of the spec (§7), restricted to the codes the modelled
operations can produce. -/
inductive ApiError where
  | InvalidInput
  | RateLimitExceeded
  | NotFound
deriving DecidableEq, Repr

/-- Modelled from the spec: a scored candidate (§3 ScoredCandidate merged with
the product fields the pipeline inspects); scores and prices are rationals. -/
structure Candidate where
  product_id : String
  price : ℚ
  relevance_score : ℚ
deriving DecidableEq, Repr

/-- The three sort modes of `POST /search` (§6). -/
inductive SortMode where
  | relevance
  | price_asc
  | price_desc
deriving DecidableEq, Repr

/-- Modelled from the spec: the raw `POST /search` request fields the
normalizer and pipeline inspect (§6). -/
structure SearchRequest where
  query : String
  limit : Int
  sort : SortMode
  min_relevance_score : Option ℚ
  conversation_context : List Message
  exclude_product_ids : List String
deriving DecidableEq, Repr

/-- Modelled from the spec: the canonical QueryDescriptor (§3). -/
structure QueryDescriptor where
  query : String
  limit : Nat
  sort : SortMode
  threshold : ℚ
  context : List Message
  exclude : List String
deriving DecidableEq, Repr

/-- Modelled from the spec: the Query Normalizer (§4.1), which is not in the
repository. Fails with `InvalidInput` on an empty query or a negative limit,
clamps the limit to `[1,10]`, defaults the minimum relevance threshold to
`0.5` and truncates the conversation context to the last 10 turns. -/
def normalize (req : SearchRequest) : Except ApiError QueryDescriptor :=
  if req.query = "" then .error .InvalidInput
  else if req.limit < 0 then .error .InvalidInput
  else .ok
    { query := req.query
      limit := (max 1 (min req.limit 10)).toNat
      sort := req.sort
      threshold := req.min_relevance_score.getD (1 / 2)
      context := req.conversation_context.drop (req.conversation_context.length - 10)
      exclude := req.exclude_product_ids }

/-- Insertion of an element into a list sorted by `le`. -/
def insertBy {α : Type} (le : α → α → Bool) (a : α) : List α → List α
  | [] => [a]
  | b :: bs => if le a b then a :: b :: bs else b :: insertBy le a bs

/-- Insertion sort by `le` (a deterministic total order is supplied per §4.4). -/
def sortBy {α : Type} (le : α → α → Bool) : List α → List α
  | [] => []
  | a :: as => insertBy le a (sortBy le as)

/-- Lexicographic order on character lists by code point. -/
def strLeAux : List Char → List Char → Bool
  | [], _ => true
  | _ :: _, [] => false
  | a :: as, b :: bs =>
    if a.toNat < b.toNat then true
    else if b.toNat < a.toNat then false
    else strLeAux as bs

/-- Deterministic total order on product identifiers. -/
def strLe (s t : String) : Bool := strLeAux s.data t.data

/-- Modelled from the spec: the final ordering of §4.4 — relevance descending
for the relevance sort; price ascending/descending for the price sorts with
relevance descending as tie-break; product identifier as final tie-break. -/
def candLe (mode : SortMode) (c d : Candidate) : Bool :=
  match mode with
  | .relevance =>
    if d.relevance_score < c.relevance_score then true
    else if c.relevance_score < d.relevance_score then false
    else strLe c.product_id d.product_id
  | .price_asc =>
    if c.price < d.price then true
    else if d.price < c.price then false
    else if d.relevance_score < c.relevance_score then true
    else if c.relevance_score < d.relevance_score then false
    else strLe c.product_id d.product_id
  | .price_desc =>
    if d.price < c.price then true
    else if c.price < d.price then false
    else if d.relevance_score < c.relevance_score then true
    else if c.relevance_score < d.relevance_score then false
    else strLe c.product_id d.product_id

/-- Conjunction of the structured filters (§4.4, §9: a predicate list combined
by conjunction). -/
def passesFilters (filters : List (Candidate → Bool)) (c : Candidate) : Bool :=
  filters.all (fun f => f c)

/-- Modelled from the spec: the Filter & Rank stage (§4.4), which is not in
the repository. Drops candidates failing any structured filter, drops
candidates below the caller's minimum relevance threshold, sorts per the
requested order and truncates to the limit. -/
def filterRank (filters : List (Candidate → Bool)) (d : QueryDescriptor)
    (cands : List Candidate) : List Candidate :=
  (sortBy (candLe d.sort)
    ((cands.filter (passesFilters filters)).filter
      (fun c => d.threshold ≤ c.relevance_score))).take d.limit

/-- Collapse duplicate product identifiers, keeping the first (hence, after
the descending sort, highest-ranked) occurrence. -/
def dedupById : List Candidate → List String → List Candidate
  | [], _ => []
  | c :: cs, seen =>
    if seen.contains c.product_id then dedupById cs seen
    else c :: dedupById cs (c.product_id :: seen)

/-- Modelled from the spec: the Deduplication stage (§4.5), which is not in
the repository. Removes candidates in the caller's exclusion set and
collapses duplicate product identifiers keeping the best occurrence. -/
def dedup (exclude : List String) (cands : List Candidate) : List Candidate :=
  dedupById (cands.filter (fun c => !(exclude.contains c.product_id))) []

/-- Modelled from the spec: the search pipeline from normalization to the
final candidate list (§2 control flow restricted to the pure stages). -/
def searchPipeline (filters : List (Candidate → Bool)) (req : SearchRequest)
    (cands : List Candidate) : Except ApiError (List Candidate) :=
  (normalize req).map (fun d => dedup d.exclude (filterRank filters d cands))

/-! ## Spec-modelled attribution store (`record_click`) -/

/-- Modelled from the spec: an Impression record (§3). Timestamps are natural
numbers. -/
structure Impression where
  request_id : String
  product_id : String
  session_id : Option String
  created : Nat
  click : Option Nat
  conversion_value : Option ℚ
deriving DecidableEq, Repr

/-- Lookup of an impression by identifier in the impression store. -/
def lookupImpression (store : List (String × Impression)) (id : String) : Option Impression :=
  match store with
  | [] => none
  | (k, imp) :: rest => if k = id then some imp else lookupImpression rest id

/-- Set the click timestamp of the impression with the given identifier. -/
def setClickTime (store : List (String × Impression)) (id : String) (t : Nat) :
    List (String × Impression) :=
  store.map (fun kv =>
    (kv.1, if kv.1 = id then { kv.2 with click := some t } else kv.2))

/-- Modelled from the spec: `record_click(impression_id)` (§4.6), which is not
in the repository (the repository only ships clients of `POST /clicks/...`).
Fails with `NotFound` if the impression does not exist or is older than the
retention window; sets the click timestamp only if unset; is a no-op (not an
error) returning the already recorded timestamp if the click is already set. -/
def record_click (retention : Nat) (store : List (String × Impression)) (id : String)
    (now : Nat) : Except ApiError (List (String × Impression) × Nat) :=
  match lookupImpression store id with
  | none => .error .NotFound
  | some imp =>
    if imp.created + retention < now then .error .NotFound
    else
      match imp.click with
      | some t => .ok (store, t)
      | none => .ok (setClickTime store id now, now)

/-! ## Spec-modelled rate limiter -/

/-- Modelled from the spec: a RateLimitBucket (§3): token count and last
refill timestamp, as rationals. -/
structure RateLimitBucket where
  tokens : ℚ
  lastRefill : ℚ
deriving DecidableEq, Repr

/-- Modelled from the spec: the configured capacity `C` and refill rate `R`
of a bucket (§4.7). -/
structure RateLimitConfig where
  capacity : ℚ
  refillRate : ℚ
deriving DecidableEq, Repr

/-- Outcome of one rate-limited request: admitted, or rejected with the
computed reset time. -/
inductive RateDecision where
  | admitted
  | rejected (resetTime : ℚ)
deriving DecidableEq, Repr

/-- Modelled from the spec: refill the tokens owed since the last check
(§4.7), capping at the capacity. -/
def refillBucket (cfg : RateLimitConfig) (b : RateLimitBucket) (now : ℚ) : RateLimitBucket :=
  { tokens := min cfg.capacity (b.tokens + cfg.refillRate * (now - b.lastRefill))
    lastRefill := now }

/-- Modelled from the spec: one request against the bucket (§4.7), which is
not in the repository. Refill first; if at least one token is available,
decrement and admit; otherwise reject with `RateLimitExceeded` and the time
until the next token, leaving the (refilled) count undecremented. -/
def rateLimitStep (cfg : RateLimitConfig) (b : RateLimitBucket) (now : ℚ) :
    RateLimitBucket × RateDecision :=
  if 1 ≤ (refillBucket cfg b now).tokens then
    ({ refillBucket cfg b now with tokens := (refillBucket cfg b now).tokens - 1 },
      .admitted)
  else
    (refillBucket cfg b now,
      .rejected ((1 - (refillBucket cfg b now).tokens) / cfg.refillRate))

/-- The bucket after a sequence of requests at the given (monotone) times. -/
def rateLimitRun (cfg : RateLimitConfig) (b0 : RateLimitBucket) (times : List ℚ) :
    RateLimitBucket :=
  times.foldl (fun b now => (rateLimitStep cfg b now).1) b0

/-! ## Concrete example values used by the witnesses -/

/-- A concrete valid search request (the §8 scenario): query
`wireless headphones`, limit 3, no filters, default threshold. -/
def requestExample : SearchRequest :=
  { query := "wireless headphones", limit := 3, sort := .relevance,
    min_relevance_score := none, conversation_context := [],
    exclude_product_ids := ["prod-x"] }

/-- A concrete candidate pool for the request example. -/
def candidatesExample : List Candidate :=
  [ { product_id := "prod-a", price := 10, relevance_score := 8 / 10 },
    { product_id := "prod-x", price := 5, relevance_score := 95 / 100 },
    { product_id := "prod-b", price := 7, relevance_score := 4 / 10 },
    { product_id := "prod-c", price := 3, relevance_score := 6 / 10 },
    { product_id := "prod-d", price := 9, relevance_score := 7 / 10 } ]

/-- A concrete impression that has not been clicked yet. -/
def impressionExample : Impression :=
  { request_id := "req-1", product_id := "prod-a", session_id := none,
    created := 0, click := none, conversion_value := none }

/-- A concrete impression store holding one impression. -/
def storeExample : List (String × Impression) := [("imp-1", impressionExample)]

/-! ## Theorems -/

/-- C4: the conversation context sent by `ConversationSession.search` has
exactly `min n 10` turns, where `n` is the length of the conversation history,
and is a suffix of the history — the most recent turns in their original
order, the oldest ones dropped. -/
theorem c4_conversation_context_window (s : ConversationSession) (q : String) :
    (s.searchPayload q).conversation_context.length = min s.messages.length 10 ∧
    (s.searchPayload q).conversation_context <:+ s.messages := by
  constructor
  · simp only [ConversationSession.searchPayload, List.length_drop]
    omega
  · exact List.drop_suffix _ _

/-- C5: the `POST /search/batch` body built by `batchSearch` has a `queries`
field with exactly one entry per input query, in input order, the `i`-th
entry being `{query: queries[i], limit: 3}`; and the per-query results of the
response are paired with the queries by position. -/
theorem c5_batch_request_shape (queries : List String) :
    (batchSearchRequest queries).queries.length = queries.length ∧
    (∀ i : Nat, (batchSearchRequest queries).queries[i]? =
      (queries[i]?).map (fun q => { query := q, limit := 3 })) ∧
    (∀ (α : Type) (results : List α) (i : Nat),
      (batchDisplayPairs results queries)[i]? =
        (results[i]?).map (fun r => (r, queries[i]?))) := by
  refine ⟨by simp [batchSearchRequest], ?_, ?_⟩
  · intro i
    simp [batchSearchRequest, List.getElem?_map]
  · intro α results i
    simp only [batchDisplayPairs, List.getElem?_map, List.getElem?_enum]
    cases results[i]? <;> simp

/-- C6 counterexample: calling `trackClick` with the empty string as the
`requestId` argument — the argument is provided (`isSome`), yet the built
payload is the empty object with no `request_id` field. -/
theorem c6_counterexample :
    (some "" : Option String).isSome = true ∧
    (trackClickPayload (some "")).request_id = none :=
  ⟨rfl, rfl⟩

/-- C6 (amended): the body sent by `trackClick` contains `request_id` exactly
when the optional `requestId` argument is provided with a truthy (non-empty)
value, in which case the value sent is `requestId`; and on a successful (`ok`)
response `trackClick` resolves with the parsed JSON body (the click
confirmation carrying the timestamp). -/
theorem c6_trackClick_payload (requestId : Option String)
    (outcome : FetchOutcome ClickResponse) :
    ((trackClick requestId outcome).1.request_id ≠ none ↔
      ∃ s, requestId = some s ∧ s ≠ "") ∧
    (∀ s, requestId = some s → s ≠ "" →
      (trackClick requestId outcome).1.request_id = some s) ∧
    (∀ ok status body, outcome = .response ok status body → ok = true →
      (trackClick requestId outcome).2 = .ok body) := by
  refine ⟨?_, ?_, ?_⟩
  · cases requestId with
    | none => simp [trackClick, trackClickPayload, truthy]
    | some s =>
      by_cases hs : s = "" <;>
        simp [trackClick, trackClickPayload, truthy, hs]
  · intro s hs hne
    subst hs
    simp [trackClick, trackClickPayload, truthy, hne]
  · intro ok status body hout hok
    subst hout hok
    simp [trackClick]

/-- C6 witness: at `requestId = some "abc"` and a successful response, the
payload carries `request_id = "abc"` and the call resolves with the body. -/
theorem c6_trackClick_payload_witness :
    (trackClick (some "abc") (.response true 200 ⟨"2024-01-01T00:00:00Z"⟩)).1.request_id
        = some "abc" ∧
    (trackClick (some "abc") (.response true 200 ⟨"2024-01-01T00:00:00Z"⟩)).2
        = .ok ⟨"2024-01-01T00:00:00Z"⟩ :=
  ⟨(c6_trackClick_payload (some "abc") _).2.1 "abc" rfl (by decide),
   (c6_trackClick_payload (some "abc") _).2.2 true 200 _ rfl rfl⟩

/-- Auxiliary: how one `searchProducts` response changes the session id the
next payload will carry. -/
theorem updateSession_payload (a : AdTokensAgent) (r : SearchResponseMeta) :
    (a.updateSession r).payloadSessionId =
      match carriedSessionId r with
      | some s => some s
      | none => a.payloadSessionId := by
  cases hmeta : r.metadata with
  | none => simp [AdTokensAgent.updateSession, carriedSessionId, hmeta]
  | some m =>
    cases hsid : m.session_id with
    | none => simp [AdTokensAgent.updateSession, carriedSessionId, hmeta, hsid, truthy]
    | some s =>
      by_cases hs : s = "" <;>
        simp [AdTokensAgent.updateSession, carriedSessionId, hmeta, hsid, truthy, hs,
          AdTokensAgent.payloadSessionId]

/-- Auxiliary: the payload session id after a run of responses, starting from
an arbitrary agent state. -/
theorem afterResponses_payload_general (rs : List SearchResponseMeta) (a : AdTokensAgent) :
    (rs.foldl AdTokensAgent.updateSession a).payloadSessionId =
      rs.foldl (fun acc r =>
        match carriedSessionId r with
        | some s => some s
        | none => acc) a.payloadSessionId := by
  induction rs generalizing a with
  | nil => rfl
  | cons r rs ih =>
    simp only [List.foldl_cons]
    rw [ih, updateSession_payload]

/-- C9 counterexample: a response whose metadata carries `session_id: ""` —
the metadata did carry a `session_id` field, but the agent does not store it
and the next request payload carries no `session_id`. -/
theorem c9_counterexample :
    (({ metadata := some { session_id := some "" } } : SearchResponseMeta).metadata.bind
        ResponseMetadata.session_id).isSome = true ∧
    (AdTokensAgent.init.updateSession
        { metadata := some { session_id := some "" } }).payloadSessionId = none :=
  ⟨rfl, rfl⟩

/-- C9 (amended): the agent's `sessionId` starts as `null`; each response
overwrites it exactly when the response metadata carries a truthy (non-empty)
`session_id`; and the `session_id` a request payload carries is precisely the
most recently returned non-empty metadata `session_id`, absent when no
earlier response carried one. -/
theorem c9_session_id_tracking :
    AdTokensAgent.init.sessionId = none ∧
    (∀ (a : AdTokensAgent) (r : SearchResponseMeta),
      (a.updateSession r).sessionId =
        match carriedSessionId r with
        | some s => some s
        | none => a.sessionId) ∧
    (∀ rs : List SearchResponseMeta,
      (AdTokensAgent.afterResponses rs).payloadSessionId = lastCarriedSessionId rs) := by
  refine ⟨rfl, ?_, ?_⟩
  · intro a r
    cases hmeta : r.metadata with
    | none => simp [AdTokensAgent.updateSession, carriedSessionId, hmeta]
    | some m =>
      cases hsid : m.session_id with
      | none => simp [AdTokensAgent.updateSession, carriedSessionId, hmeta, hsid, truthy]
      | some s =>
        by_cases hs : s = "" <;>
          simp [AdTokensAgent.updateSession, carriedSessionId, hmeta, hsid, truthy, hs]
  · intro rs
    rw [AdTokensAgent.afterResponses, afterResponses_payload_general]
    rfl

/-- Auxiliary: the `forEach` body of `formatProductsForAgent` never reads the
`disclosure_text` field, so clearing it leaves the loop output unchanged. -/
theorem formatBodyFrom_clear (l : List AdProduct) (i : Nat) (acc : String) :
    formatBodyFrom i (l.map (fun q => { q with disclosure_text := none })) acc =
      formatBodyFrom i l acc := by
  induction l generalizing i acc with
  | nil => rfl
  | cons p ps ih => simp [formatBodyFrom, productLine, ih]

/-- C10 counterexample: a first (and only) product whose `disclosure_text` is
present but empty — the product has a disclosure text, yet the formatted
output is not the loop output with that disclosure text appended. -/
theorem c10_counterexample :
    emptyDisclosureProduct.disclosure_text.isSome = true ∧
    formatProductsForAgent (some [emptyDisclosureProduct]) ≠
      formatBody [emptyDisclosureProduct] ++ "\n" ++ "" ++ "\n" :=
  ⟨rfl, by decide⟩

/-- C10 (amended): `formatProductsForAgent` returns exactly
`No products found.` on a null or empty list; on a non-empty list it appends
the first product's disclosure text exactly when that text is truthy (present
and non-empty); and the disclosure texts of later products never influence
the output. -/
theorem c10_format_disclosure :
    formatProductsForAgent none = "No products found." ∧
    formatProductsForAgent (some []) = "No products found." ∧
    (∀ (p : AdProduct) (ps : List AdProduct),
      formatProductsForAgent (some (p :: ps)) =
        formatBody (p :: ps) ++
          (match p.disclosure_text with
           | some d => if d = "" then "" else "\n" ++ d ++ "\n"
           | none => "")) ∧
    (∀ (p : AdProduct) (ps : List AdProduct),
      formatProductsForAgent (some (p :: ps)) =
        formatProductsForAgent
          (some (p :: ps.map (fun q => { q with disclosure_text := none })))) := by
  refine ⟨rfl, rfl, ?_, ?_⟩
  · intro p ps
    cases hd : p.disclosure_text with
    | none => simp [formatProductsForAgent, truthy, hd]
    | some d =>
      by_cases hde : d = "" <;>
        simp [formatProductsForAgent, truthy, hd, hde]
  · intro p ps
    simp only [formatProductsForAgent, formatBody, formatBodyFrom]
    rw [formatBodyFrom_clear]

/-- Auxiliary: prepending one character commutes with splitting an appended
tail into complete lines plus trailing fragment. -/
theorem lineSplitStep_append (c : Char) (A : List (List Char) × List Char) (b : List Char) :
    lineSplitStep c (A.1 ++ (lineSplit (A.2 ++ b)).1, (lineSplit (A.2 ++ b)).2) =
      ((lineSplitStep c A).1 ++ (lineSplit ((lineSplitStep c A).2 ++ b)).1,
       (lineSplit ((lineSplitStep c A).2 ++ b)).2) := by
  rcases A with ⟨as, t⟩
  by_cases hc : c = '\n'
  · subst hc
    simp [lineSplitStep]
  · cases as with
    | nil =>
      have hstep : lineSplitStep c ([], t) = ([], c :: t) := by simp [lineSplitStep, hc]
      rw [hstep]
      rfl
    | cons l ls =>
      simp [lineSplitStep, hc]

/-- Auxiliary: splitting a concatenation into complete lines equals splitting
the first part and then re-splitting its trailing fragment glued to the
second part. -/
theorem lineSplit_append (a b : List Char) :
    lineSplit (a ++ b) =
      ((lineSplit a).1 ++ (lineSplit ((lineSplit a).2 ++ b)).1,
       (lineSplit ((lineSplit a).2 ++ b)).2) := by
  induction a with
  | nil => simp [lineSplit]
  | cons c cs ih =>
    show lineSplitStep c (lineSplit (cs ++ b)) = _
    rw [ih, lineSplitStep_append]
    rfl

/-- Auxiliary: processing two chunks in sequence equals processing their
concatenation as one chunk. -/
theorem processChunk_append (parseData : List Char → Option StreamingData)
    (st : StreamState) (a b : List Char) :
    processChunk parseData (processChunk parseData st a) b =
      processChunk parseData st (a ++ b) := by
  simp only [processChunk]
  rw [← List.append_assoc, lineSplit_append (st.buffer ++ a) b]
  simp [List.foldl_append]

/-- C8: for every SSE character stream and every partition of it into chunks,
the `streamSearch` read loop ends in the same state — and in particular
reports the same products in the same order and the same final count — as if
the whole stream had arrived in a single chunk: an incomplete trailing line
is kept in the buffer and completed by the next chunk, never parsed early. -/
theorem c8_stream_chunk_invariance (parseData : List Char → Option StreamingData)
    (chunks : List (List Char)) :
    List.foldl (processChunk parseData) initStreamState chunks =
      processChunk parseData initStreamState chunks.flatten ∧
    (List.foldl (processChunk parseData) initStreamState chunks).products.length =
      (processChunk parseData initStreamState chunks.flatten).products.length := by
  have main : List.foldl (processChunk parseData) initStreamState chunks =
      processChunk parseData initStreamState chunks.flatten := by
    induction chunks using List.reverseRecOn with
    | nil => rfl
    | append_singleton cs c ih =>
      rw [List.foldl_append]
      simp only [List.foldl_cons, List.foldl_nil]
      rw [ih, processChunk_append, List.flatten_append]
      simp
  exact ⟨main, by rw [main]⟩

/-- C7: `AdTokensAgent.trackClick` resolves without throwing for every outcome
of the underlying `fetch` call — a network failure is caught and only logged
as a warning, and a response of any status is ignored. -/
theorem c7_agent_trackClick_never_throws (β : Type) (outcome : FetchOutcome β) :
    ∃ r, AdTokensAgent.trackClick outcome = Except.ok r := by
  cases outcome with
  | networkError msg => exact ⟨{ warned := true }, rfl⟩
  | response ok status body => exact ⟨{ warned := false }, rfl⟩

/-- Auxiliary: membership in an insertion comes from the inserted element or
the original list. -/
theorem mem_insertBy {α : Type} (le : α → α → Bool) (a x : α) :
    ∀ l : List α, x ∈ insertBy le a l → x = a ∨ x ∈ l := by
  intro l
  induction l with
  | nil =>
    intro h
    simp only [insertBy, List.mem_singleton] at h
    exact Or.inl h
  | cons b bs ih =>
    intro h
    by_cases hc : le a b
    · simp only [insertBy, if_pos hc, List.mem_cons] at h
      rcases h with h | h
      · exact Or.inl h
      · exact Or.inr (List.mem_cons.mpr h)
    · simp only [insertBy, if_neg hc, List.mem_cons] at h
      rcases h with h | h
      · exact Or.inr (List.mem_cons.mpr (Or.inl h))
      · rcases ih h with h1 | h1
        · exact Or.inl h1
        · exact Or.inr (List.mem_cons.mpr (Or.inr h1))

/-- Auxiliary: sorting introduces no new elements. -/
theorem mem_sortBy {α : Type} (le : α → α → Bool) (x : α) :
    ∀ l : List α, x ∈ sortBy le l → x ∈ l := by
  intro l
  induction l with
  | nil => intro h; simp [sortBy] at h
  | cons a as ih =>
    intro h
    rcases mem_insertBy le a x _ h with h1 | h1
    · exact h1 ▸ List.mem_cons_self a as
    · exact List.mem_cons.mpr (Or.inr (ih h1))

/-- Auxiliary: duplicate collapsing is a sublist of its input. -/
theorem dedupById_sublist :
    ∀ (l : List Candidate) (seen : List String), (dedupById l seen).Sublist l := by
  intro l
  induction l with
  | nil => intro seen; simp [dedupById]
  | cons c cs ih =>
    intro seen
    by_cases hc : c.product_id ∈ seen
    · simpa [dedupById, hc] using (ih seen).cons c
    · simpa [dedupById, hc] using (ih (c.product_id :: seen)).cons₂ c

/-- Auxiliary: the deduplication stage is a sublist of its input. -/
theorem dedup_sublist (exclude : List String) (l : List Candidate) :
    (dedup exclude l).Sublist l :=
  (dedupById_sublist _ []).trans (List.filter_sublist l)

/-- Auxiliary: after ranking and deduplication the result respects the
descriptor's limit and relevance threshold. -/
theorem dedupFilterRank_bound (filters : List (Candidate → Bool))
    (d : QueryDescriptor) (cands : List Candidate) :
    (dedup d.exclude (filterRank filters d cands)).length ≤ d.limit ∧
    ∀ c ∈ dedup d.exclude (filterRank filters d cands),
      d.threshold ≤ c.relevance_score := by
  constructor
  · refine le_trans (dedup_sublist _ _).length_le ?_
    simp only [filterRank]
    exact List.length_take_le _ _
  · intro c hc
    have hcL := (dedup_sublist _ _).subset hc
    simp only [filterRank] at hcL
    have h5 := mem_sortBy _ c _ (List.mem_of_mem_take hcL)
    exact of_decide_eq_true (List.mem_filter.mp h5).2

/-- C1: for every valid search request (non-empty query, declared limit range
`1..10` of §6), the pipeline succeeds and returns at most `min limit 10`
candidates, each with a relevance score at least the request's minimum
threshold, which defaults to `0.5`. -/
theorem c1_search_results_bounded (filters : List (Candidate → Bool))
    (req : SearchRequest) (cands : List Candidate)
    (hq : req.query ≠ "") (h1 : 1 ≤ req.limit) (h2 : req.limit ≤ 10) :
    ∃ res : List Candidate,
      searchPipeline filters req cands = .ok res ∧
      (res.length : Int) ≤ min req.limit 10 ∧
      ∀ c ∈ res, req.min_relevance_score.getD (1 / 2) ≤ c.relevance_score := by
  have hneg : ¬ req.limit < 0 := by omega
  have hnorm : normalize req = .ok
      { query := req.query
        limit := (max 1 (min req.limit 10)).toNat
        sort := req.sort
        threshold := req.min_relevance_score.getD (1 / 2)
        context := req.conversation_context.drop (req.conversation_context.length - 10)
        exclude := req.exclude_product_ids } := by
    simp [normalize, hq, hneg]
  obtain ⟨d, hd, hlim, hthr⟩ :
      ∃ d, normalize req = .ok d ∧
        d.limit = (max 1 (min req.limit 10)).toNat ∧
        d.threshold = req.min_relevance_score.getD (1 / 2) :=
    ⟨_, hnorm, rfl, rfl⟩
  refine ⟨dedup d.exclude (filterRank filters d cands), ?_, ?_, ?_⟩
  · rw [searchPipeline, hd]
    rfl
  · have hlen := (dedupFilterRank_bound filters d cands).1
    rw [hlim] at hlen
    omega
  · intro c hc
    have hmem := (dedupFilterRank_bound filters d cands).2 c hc
    rwa [hthr] at hmem

/-- C1 witness: the §8 scenario request (limit 3, default threshold) over a
concrete candidate pool. -/
theorem c1_search_results_bounded_witness :
    requestExample.query ≠ "" ∧ 1 ≤ requestExample.limit ∧ requestExample.limit ≤ 10 ∧
    (∃ res : List Candidate,
      searchPipeline [] requestExample candidatesExample = .ok res ∧
      (res.length : Int) ≤ min requestExample.limit 10 ∧
      ∀ c ∈ res, requestExample.min_relevance_score.getD (1 / 2) ≤ c.relevance_score) :=
  ⟨by decide, by decide, by decide,
    c1_search_results_bounded [] requestExample candidatesExample
      (by decide) (by decide) (by decide)⟩

/-- Auxiliary: setting the click time rewrites the stored impression in
place. -/
theorem lookupImpression_setClickTime (store : List (String × Impression))
    (id : String) (t : Nat) :
    lookupImpression (setClickTime store id t) id =
      (lookupImpression store id).map (fun imp => { imp with click := some t }) := by
  induction store with
  | nil => rfl
  | cons kv rest ih =>
    rcases kv with ⟨k, imp⟩
    by_cases hk : k = id
    · subst hk
      simp [setClickTime, lookupImpression]
    · simpa [setClickTime, lookupImpression, hk] using ih

/-- C2: for an existing, unexpired impression, two `record_click` calls with
the same impression id both succeed and yield the same recorded click
timestamp and the same final store — the first call sets the timestamp only
if it is unset, and the second call is a no-op, not an error. -/
theorem c2_record_click_idempotent (retention : Nat) (store : List (String × Impression))
    (id : String) (imp : Impression) (t1 t2 : Nat)
    (hfound : lookupImpression store id = some imp)
    (h1 : ¬ imp.created + retention < t1)
    (h2 : ¬ imp.created + retention < t2) :
    ∃ s1 ts1,
      record_click retention store id t1 = .ok (s1, ts1) ∧
      record_click retention s1 id t2 = .ok (s1, ts1) ∧
      (imp.click = none → ts1 = t1) ∧
      (∀ t, imp.click = some t → ts1 = t) := by
  cases hclick : imp.click with
  | none =>
    refine ⟨setClickTime store id t1, t1, ?_, ?_, fun _ => rfl, ?_⟩
    · simp [record_click, hfound, h1, hclick]
    · have hl : lookupImpression (setClickTime store id t1) id =
          some { imp with click := some t1 } := by
        rw [lookupImpression_setClickTime, hfound]
        rfl
      simp [record_click, hl, h2]
    · intro t ht
      simp at ht
  | some t0 =>
    refine ⟨store, t0, ?_, ?_, ?_, ?_⟩
    · simp [record_click, hfound, h1, hclick]
    · simp [record_click, hfound, h2, hclick]
    · intro h
      simp at h
    · intro t ht
      exact Option.some.inj ht

/-- C2 witness: the concrete one-impression store, clicks at times 5 and 7. -/
theorem c2_record_click_idempotent_witness :
    lookupImpression storeExample "imp-1" = some impressionExample ∧
    ¬ impressionExample.created + 1000 < 5 ∧
    ¬ impressionExample.created + 1000 < 7 ∧
    (∃ s1 ts1,
      record_click 1000 storeExample "imp-1" 5 = .ok (s1, ts1) ∧
      record_click 1000 s1 "imp-1" 7 = .ok (s1, ts1) ∧
      (impressionExample.click = none → ts1 = 5) ∧
      (∀ t, impressionExample.click = some t → ts1 = t)) :=
  ⟨by decide, by decide, by decide,
    c2_record_click_idempotent 1000 storeExample "imp-1" impressionExample 5 7
      (by decide) (by decide) (by decide)⟩

/-- Auxiliary: one rate-limited request keeps the token count nonnegative and
stamps the refill time. -/
theorem rateLimitStep_nonneg (cfg : RateLimitConfig) (b : RateLimitBucket) (now : ℚ)
    (hcap : 0 ≤ cfg.capacity) (hrate : 0 ≤ cfg.refillRate)
    (htok : 0 ≤ b.tokens) (hm : b.lastRefill ≤ now) :
    0 ≤ (rateLimitStep cfg b now).1.tokens ∧
    (rateLimitStep cfg b now).1.lastRefill = now := by
  have href : 0 ≤ (refillBucket cfg b now).tokens := by
    simp only [refillBucket]
    refine le_min hcap ?_
    have hmul : 0 ≤ cfg.refillRate * (now - b.lastRefill) :=
      mul_nonneg hrate (by linarith)
    linarith
  by_cases h : 1 ≤ (refillBucket cfg b now).tokens
  · constructor
    · simp only [rateLimitStep, if_pos h]
      linarith
    · simp only [rateLimitStep, if_pos h]
      rfl
  · constructor
    · simp only [rateLimitStep, if_neg h]
      exact href
    · simp only [rateLimitStep, if_neg h]
      rfl

/-- Auxiliary: the token count stays nonnegative over any monotone run. -/
theorem rateLimitRun_nonneg (cfg : RateLimitConfig)
    (hcap : 0 ≤ cfg.capacity) (hrate : 0 ≤ cfg.refillRate) :
    ∀ (times : List ℚ) (b : RateLimitBucket), 0 ≤ b.tokens →
      List.Chain (· ≤ ·) b.lastRefill times → 0 ≤ (rateLimitRun cfg b times).tokens := by
  intro times
  induction times with
  | nil => intro b h _; exact h
  | cons t ts ih =>
    intro b h hchain
    rw [List.chain_cons] at hchain
    obtain ⟨hle, hchain2⟩ := hchain
    have hstep := rateLimitStep_nonneg cfg b t hcap hrate h hle
    have hrun : rateLimitRun cfg b (t :: ts) =
        rateLimitRun cfg (rateLimitStep cfg b t).1 ts := rfl
    rw [hrun]
    refine ih _ hstep.1 ?_
    rw [hstep.2]
    exact hchain2

/-- C3: over any sequence of requests observed at monotonically nondecreasing
clock readings, a bucket's token count never becomes negative; each request
first refills, is admitted (with a decrement) exactly when the refilled count
is at least 1, and otherwise is rejected with `RateLimitExceeded` leaving the
refilled count undecremented. -/
theorem c3_tokens_never_negative (cfg : RateLimitConfig) (b0 : RateLimitBucket)
    (times : List ℚ)
    (hcap : 0 ≤ cfg.capacity) (hrate : 0 ≤ cfg.refillRate)
    (h0 : 0 ≤ b0.tokens) (hmono : List.Chain (· ≤ ·) b0.lastRefill times) :
    0 ≤ (rateLimitRun cfg b0 times).tokens ∧
    (∀ (b : RateLimitBucket) (now : ℚ),
      (rateLimitStep cfg b now).2 = .admitted ↔
        1 ≤ (refillBucket cfg b now).tokens) ∧
    (∀ (b : RateLimitBucket) (now : ℚ), 1 ≤ (refillBucket cfg b now).tokens →
      (rateLimitStep cfg b now).1.tokens = (refillBucket cfg b now).tokens - 1) ∧
    (∀ (b : RateLimitBucket) (now : ℚ), ¬ 1 ≤ (refillBucket cfg b now).tokens →
      (rateLimitStep cfg b now).1 = refillBucket cfg b now) := by
  refine ⟨rateLimitRun_nonneg cfg hcap hrate times b0 h0 hmono, ?_, ?_, ?_⟩
  · intro b now
    by_cases h : 1 ≤ (refillBucket cfg b now).tokens
    · simp [rateLimitStep, if_pos h, h]
    · simp [rateLimitStep, if_neg h, h]
  · intro b now h
    simp [rateLimitStep, if_pos h]
  · intro b now h
    simp [rateLimitStep, if_neg h]

/-- C3 witness: a capacity-5 bucket facing six rapid requests followed by a
later one. -/
theorem c3_tokens_never_negative_witness :
    0 ≤ ({ capacity := 5, refillRate := 1 } : RateLimitConfig).capacity ∧
    0 ≤ ({ capacity := 5, refillRate := 1 } : RateLimitConfig).refillRate ∧
    0 ≤ ({ tokens := 5, lastRefill := 0 } : RateLimitBucket).tokens ∧
    List.Chain (· ≤ ·) ({ tokens := 5, lastRefill := 0 } : RateLimitBucket).lastRefill
      [0, 0, 0, 0, 0, 0, 1] ∧
    0 ≤ (rateLimitRun { capacity := 5, refillRate := 1 }
      { tokens := 5, lastRefill := 0 } [0, 0, 0, 0, 0, 0, 1]).tokens :=
  ⟨by norm_num, by norm_num, by norm_num,
    by simp [List.chain_cons],
    (c3_tokens_never_negative { capacity := 5, refillRate := 1 }
      { tokens := 5, lastRefill := 0 } [0, 0, 0, 0, 0, 0, 1]
      (by norm_num) (by norm_num) (by norm_num) (by simp [List.chain_cons])).1⟩

end AdTokens
